import Mathlib

/-!
Shallow embedding of the laserBeam repository (calibrate.py and
eye_laser_game.py) and verification of the frozen claims about it.

Conventions of the embedding:
* Python floats are modelled as exact rationals (ℚ); screen pixel
  coordinates that are Python ints are modelled as ℤ.
* Opaque numerical routines from OpenCV are modelled as parameters:
  undistortion (`cv2.undistortPoints` wrapped in `undistort_point`) is an
  arbitrary function `ℚ × ℚ → ℚ × ℚ`, and `cv2.findHomography` is an
  arbitrary function returning `Option Mat3` (None models a failed fit).
  `cv2.perspectiveTransform` of a single point is the concrete projective
  application `applyH`.
* Code that would raise a Python exception is modelled with `Option`
  (`none` = the exception path) or, for reads that the enclosing phase
  invariant makes total, with an explicit default that the theorems never
  reach.
-/

namespace LaserBeam

/-- Minimal JSON value model, for the calibration artifact file
(`calibration.json`) that calibrate.py writes and eye_laser_game.py reads. -/
inductive Json where
  | null
  | num (q : ℚ)
  | str (s : String)
  | arr (elems : List Json)
  | obj (fields : List (String × Json))

/-- Dictionary lookup `j[key]`: returns `none` (the Python `KeyError` or
`TypeError` path) when `j` is not an object or lacks the key. -/
def Json.lookup : Json → String → Option Json
  | .obj fields, k => (fields.find? (fun kv => kv.1 == k)).map (·.2)
  | _, _ => none

/-- Python truthiness of a JSON value (`if calibration:`): empty list or
dict, zero, empty string and `None` are falsy. -/
def Json.truthy : Json → Bool
  | .null => false
  | .num q => decide (q ≠ 0)
  | .str s => decide (s ≠ "")
  | .arr l => !l.isEmpty
  | .obj l => !l.isEmpty

/-- Read a JSON array of numbers; `none` models the Python exception on any
other shape. -/
def Json.nums : Json → Option (List ℚ)
  | .arr l => l.mapM (fun j => match j with | .num q => some q | _ => none)
  | _ => none

/-- Python `round` on a float: round half to even (banker's rounding),
as used by `int(round(X))` in `map_affine`. -/
def roundHE (q : ℚ) : ℤ :=
  let f := ⌊q⌋
  let r := q - (f : ℚ)
  if r < 1 / 2 then f
  else if 1 / 2 < r then f + 1
  else if f % 2 = 0 then f else f + 1

namespace Calibrate

/-- One datum from `device.receive_gaze_datum()`: raw scene-camera pixel
coordinates plus the liveness flag `worn`. -/
structure GazeDatum where
  x : ℚ
  y : ℚ
  worn : Bool
deriving DecidableEq

/-- One entry of `captured_points`: the dict
`{"gaze": [...], "screen": [cx, cy], "adjusted": ...}` built on a
successful capture. -/
structure CapturedPoint where
  gaze : ℚ × ℚ
  screen : ℤ × ℤ
  adjusted : Option (ℚ × ℚ)
deriving DecidableEq

/-- A 3x3 homography matrix as produced by `cv2.findHomography`. -/
structure Mat3 where
  a : ℚ
  b : ℚ
  c : ℚ
  d : ℚ
  e : ℚ
  f : ℚ
  g : ℚ
  h : ℚ
  i : ℚ
deriving DecidableEq

/-- `cv2.perspectiveTransform` of a single point: projective application of
the matrix, dividing by the homogeneous scale. (The source would produce
inf on a zero scale; in ℚ the division yields 0 — never reached by the
theorems below.) -/
def applyH (m : Mat3) (p : ℚ × ℚ) : ℚ × ℚ :=
  let w := m.g * p.1 + m.h * p.2 + m.i
  ((m.a * p.1 + m.b * p.2 + m.c) / w, (m.d * p.1 + m.e * p.2 + m.f) / w)

/-- The ambient context of `run_calibration`: screen size, the undistortion
function (`undistort_point`, which wraps the opaque
`cv2.undistortPoints`), the opaque least-squares homography fitter
(`cv2.findHomography` with `method=0`; `none` models a failed fit), and
the device stream (`device.receive_gaze_datum`, indexed by pull number;
`none` models a missing datum). -/
structure Ctx where
  W : ℤ
  H : ℤ
  und : ℚ × ℚ → ℚ × ℚ
  findH : List (ℚ × ℚ) → List (ℚ × ℚ) → Option Mat3
  dev : ℕ → Option GazeDatum

/-- SAMPLES_PER_POINT = 30. -/
def SAMPLES_PER_POINT : ℕ := 30

/-- The success threshold `int(SAMPLES_PER_POINT * 0.7)`: with
SAMPLES_PER_POINT = 30 the float product is exactly 21.0, so this is 21. -/
def MIN_SAMPLES : ℕ := 21

/-- `calibration_points`: center plus the four corners. Python `//` is
floor division, hence `Int.fdiv`. -/
def calibPoints (ctx : Ctx) : List (ℤ × ℤ) :=
  [(Int.fdiv ctx.W 2, Int.fdiv ctx.H 2),
   (100, 100),
   (ctx.W - 100, 100),
   (100, ctx.H - 100),
   (ctx.W - 100, ctx.H - 100)]

/-- The burst-capture loop body on SPACE: pull SAMPLES_PER_POINT data, keep
a sample only when a datum arrived and `gaze.worn` holds, and undistort it
(`undistort_point(gaze.x, gaze.y)`). -/
def burstSamples (ctx : Ctx) : List (ℚ × ℚ) :=
  (List.range SAMPLES_PER_POINT).filterMap fun n =>
    match ctx.dev n with
    | some gz => if gz.worn then some (ctx.und (gz.x, gz.y)) else none
    | none => none

/-- `np.mean(samples, axis=0)`: componentwise arithmetic mean. -/
def meanQ (l : List (ℚ × ℚ)) : ℚ × ℚ :=
  ((l.map Prod.fst).sum / (l.length : ℚ), (l.map Prod.snd).sum / (l.length : ℚ))

/-- Cast a screen target to rational coordinates. -/
def qScreen (p : ℤ × ℤ) : ℚ × ℚ := ((p.1 : ℚ), (p.2 : ℚ))

/-- The fit destination of one captured point:
`p["adjusted"] if p["adjusted"] is not None else p["screen"]`. -/
def fitDst (p : CapturedPoint) : ℚ × ℚ :=
  match p.adjusted with
  | some adj => adj
  | none => qScreen p.screen

/-- `recompute_homography`: gather the non-None points; with at least 4 of
them run the fitter on their gaze sources and adjusted-or-screen
destinations, otherwise the homography is None. -/
def recompute (ctx : Ctx) (cps : List (Option CapturedPoint)) : Option Mat3 :=
  let pts := cps.filterMap id
  if 4 ≤ pts.length then ctx.findH (pts.map (·.gaze)) (pts.map fitDst) else none

/-- The `phase` string variable of the main loop. (The "done" value appears
in the rendering branch of the source but is never assigned.) -/
inductive Phase where
  | init
  | capture
  | replay
  | manual_edit
  | done
deriving DecidableEq

/-- The keys the KEYDOWN handler distinguishes. `digit i` stands for
K_1..K_5, giving target index `i` in [0, 5). -/
inductive Key where
  | escape
  | space
  | digit (i : Fin 5)
  | up
  | down
  | left
  | right
  | ret
  | other
deriving DecidableEq

/-- A pygame event relevant to the handler: window QUIT, or a KEYDOWN
together with the SHIFT modifier state at that moment. -/
inductive Ev where
  | quit
  | key (k : Key) (shift : Bool)
deriving DecidableEq

/-- The mutable state of `run_calibration`'s main loop. -/
structure CalibState where
  phase : Phase
  current_index : ℕ
  redo_index : Option ℕ
  manual_edit_index : Option ℕ
  captured_points : List (Option CapturedPoint)
  homography : Option Mat3
  running : Bool
deriving DecidableEq

/-- Read `captured_points[i]` as an optional point (`none` also when `i` is
out of range, where the source would raise). -/
def getPt (s : CalibState) (i : ℕ) : Option CapturedPoint :=
  (s.captured_points.get? i).join

/-- `idx = redo_index if redo_index is not None else current_index`. -/
def captureIdx (s : CalibState) : ℕ :=
  s.redo_index.getD s.current_index

/-- Write a new `adjusted` value into point `i` (the repeated
`captured_points[manual_edit_index]["adjusted"] = [gx, gy]`). -/
def writeAdj (s : CalibState) (i : ℕ) (p : CapturedPoint) (v : ℚ × ℚ) : CalibState :=
  { s with captured_points := s.captured_points.set i (some { p with adjusted := some v }) }

/-- The SPACE handler in the capture phase: run the burst, and on at least
MIN_SAMPLES valid samples store the averaged point (with `adjusted = None`)
and advance; otherwise change nothing (the operator retries). -/
def captureHandler (ctx : Ctx) (s : CalibState) : CalibState :=
  let idx := captureIdx s
  let samples := burstSamples ctx
  if MIN_SAMPLES ≤ samples.length then
    let avg := meanQ samples
    let scr := (calibPoints ctx).getD idx (0, 0)
    let cps := s.captured_points.set idx (some { gaze := avg, screen := scr, adjusted := none })
    if s.redo_index = none then
      let ci := s.current_index + 1
      if 5 ≤ ci then
        { s with captured_points := cps, current_index := ci,
                 homography := recompute ctx cps, phase := .replay }
      else
        { s with captured_points := cps, current_index := ci }
    else
      { s with captured_points := cps, redo_index := none,
               homography := recompute ctx cps, phase := .replay }
  else s

/-- The pre-edit initial value of `adjusted` at manual-edit entry: the
homography-mapped gaze of the point (`cv2.perspectiveTransform`), or a
copy of the screen target when no homography exists. -/
def preEdit (s : CalibState) (p : CapturedPoint) : ℚ × ℚ :=
  match s.homography with
  | some hm => applyH hm p.gaze
  | none => qScreen p.screen

/-- The digit handler in the replay phase: with SHIFT enter manual edit
(initializing `adjusted` to the homography-mapped gaze or, lacking a
homography, to a copy of the screen target); without SHIFT clear the point
and enter redo capture. A digit for an empty slot does nothing. -/
def replayHandler (_ctx : Ctx) (s : CalibState) : Key → Bool → CalibState
  | .digit i, shift =>
    (match getPt s i.val with
    | none => s
    | some p =>
      if shift then
        { s with manual_edit_index := some i.val,
                 captured_points := s.captured_points.set i.val (some { p with adjusted := some (preEdit s p) }),
                 phase := .manual_edit }
      else
        { s with redo_index := some i.val,
                 captured_points := s.captured_points.set i.val none,
                 phase := .capture })
  | _, _ => s

/-- The key handler in the manual-edit phase: read the current `adjusted`
(set by entry; the default is never reached in phase invariant), nudge by 5
(or 20 with SHIFT) on arrows, and on RETURN commit, refit and go back to
replay. Every non-RETURN key writes the (possibly unchanged) value back,
exactly as the trailing assignment in the source does. -/
def manualHandler (ctx : Ctx) (s : CalibState) (i : ℕ) (k : Key) (shift : Bool) : CalibState :=
  match getPt s i with
  | none => s
  | some p =>
    let gv := p.adjusted.getD (0, 0)
    let step : ℚ := if shift then 20 else 5
    match k with
    | .up => writeAdj s i p (gv.1, gv.2 - step)
    | .down => writeAdj s i p (gv.1, gv.2 + step)
    | .left => writeAdj s i p (gv.1 - step, gv.2)
    | .right => writeAdj s i p (gv.1 + step, gv.2)
    | .ret =>
      let s1 := writeAdj s i p gv
      { s1 with homography := recompute ctx s1.captured_points,
                manual_edit_index := none, phase := .replay }
    | _ => writeAdj s i p gv

/-- One event through the handler chain of the main loop: QUIT stops the
loop; ESC cancels manual edit or otherwise stops the loop; SPACE in
capture runs the burst; digits act in replay; the rest acts in manual
edit. The elif order mirrors the source. -/
def calibStep (ctx : Ctx) (s : CalibState) (e : Ev) : CalibState :=
  match e with
  | .quit => { s with running := false }
  | .key k shift =>
    if k = .escape then
      if s.phase = .manual_edit then
        { s with manual_edit_index := none, phase := .replay }
      else
        { s with running := false }
    else if s.phase = .capture ∧ k = .space then
      captureHandler ctx s
    else if s.phase = .replay then
      replayHandler ctx s k shift
    else if s.phase = .manual_edit ∧ s.manual_edit_index ≠ none then
      manualHandler ctx s (s.manual_edit_index.getD 0) k shift
    else s

/-- Fold a list of events through the handler. -/
def runEvents (ctx : Ctx) (s : CalibState) (evs : List Ev) : CalibState :=
  evs.foldl (calibStep ctx) s

/-- JSON encoding of one captured point as `json.dump` writes it. -/
def pointJson (p : CapturedPoint) : Json :=
  .obj [("gaze", .arr [.num p.gaze.1, .num p.gaze.2]),
        ("screen", .arr [.num (p.screen.1 : ℚ), .num (p.screen.2 : ℚ)]),
        ("adjusted", match p.adjusted with
          | some adj => .arr [.num adj.1, .num adj.2]
          | none => .null)]

/-- The artifact written at session end:
`json.dump([p for p in captured_points if p is not None], f)`. -/
def saveArtifact (cps : List (Option CapturedPoint)) : Json :=
  .arr ((cps.filterMap id).map pointJson)

end Calibrate

namespace Game

open Calibrate (Mat3)

/-- `map_affine(gx, gy, calib)` from eye_laser_game.py: read
`calib["params_x"]` and `calib["params_y"]` as length-at-least-3 numeric
arrays and apply the affine map, rounding to ints. `none` models the
Python exception raised when the artifact lacks those keys or the shape is
wrong (caught by the caller, which then falls back to the mouse). -/
def map_affine (calib : Json) (gp : ℚ × ℚ) : Option (ℤ × ℤ) :=
  match calib.lookup "params_x", calib.lookup "params_y" with
  | some jx, some jy =>
    match jx.nums, jy.nums with
    | some (px0 :: px1 :: px2 :: _), some (py0 :: py1 :: py2 :: _) =>
      some (roundHE (px0 * gp.1 + px1 * gp.2 + px2),
            roundHE (py0 * gp.1 + py1 * gp.2 + py2))
    | _, _ => none
  | _, _ => none

/-- A received gaze sample: one with raw pixel attributes x and y, one with
only a normalized position, or some other datum shape. -/
inductive GazeSample where
  | xy (x y : ℚ)
  | norm (nx ny : ℚ)
  | other
deriving DecidableEq

/-- `max(0, min(hi, v))`. -/
def clampI (hi : ℤ) (v : ℤ) : ℤ := max 0 (min hi v)

/-- The per-frame cursor resolution of the main loop (lines 222-258 of
eye_laser_game.py): start from the mouse position; only when a device is
connected and the loaded calibration is truthy, try the gaze path —
undistort, `map_affine`, clamp to the screen; on a missing sample, an
unusable datum shape or any exception (in particular `map_affine` failing
on the artifact) keep the mouse position. -/
def resolveGameCursor (W H : ℤ) (und : ℚ × ℚ → ℚ × ℚ) (sceneRes : Option (ℤ × ℤ))
    (device : Bool) (calibration : Option Json) (gaze : Option GazeSample)
    (mouse : ℤ × ℤ) : ℤ × ℤ :=
  match calibration with
  | none => mouse
  | some calib =>
    if device && calib.truthy then
      match gaze with
      | none => mouse
      | some gs =>
        match gs with
        | .xy gx gy =>
          match map_affine calib (und (gx, gy)) with
          | some (mx, my) => (clampI (W - 1) mx, clampI (H - 1) my)
          | none => mouse
        | .norm nx ny =>
          let raw : ℚ × ℚ :=
            match sceneRes with
            | some (rw, rh) => (nx * (rw : ℚ), ny * (rh : ℚ))
            | none => (nx * (W : ℚ), ny * (H : ℚ))
          match map_affine calib (und raw) with
          | some (mx, my) => (clampI (W - 1) mx, clampI (H - 1) my)
          | none => mouse
        | .other => mouse
    else mouse

/-- ASTEROID_SIZE = 64. -/
def ASTEROID_SIZE : ℤ := 64

/-- FIXATION_TIME = 1.0 seconds. -/
def FIXATION_TIME : ℚ := 1

/-- LASER_FIXATION_THRESHOLD = 0.02 seconds. -/
def LASER_FIXATION_THRESHOLD : ℚ := 1 / 50

/-- The fixation-relevant state of one Asteroid: its (static) center and
the dwell fields `fixating` and `start_fix`. -/
structure Asteroid where
  x : ℤ
  y : ℤ
  fixating : Bool
  start_fix : Option ℚ
deriving DecidableEq

/-- `self.rect.collidepoint(cursor_pos)` for the rect
`Rect(x - SIZE//2, y - SIZE//2, SIZE, SIZE)`: pygame excludes the right and
bottom edges. -/
def collide (a : Asteroid) (c : ℤ × ℤ) : Bool :=
  decide (a.x - ASTEROID_SIZE / 2 ≤ c.1) && decide (c.1 < a.x - ASTEROID_SIZE / 2 + ASTEROID_SIZE)
    && decide (a.y - ASTEROID_SIZE / 2 ≤ c.2) && decide (c.2 < a.y - ASTEROID_SIZE / 2 + ASTEROID_SIZE)

/-- The events `Asteroid.update` reports to the main loop. -/
inductive AstEvent where
  | fixation_start
  | destroyed
deriving DecidableEq

/-- `Asteroid.update(cursor_pos)` at frame time `now`: entering the rect
starts the dwell, staying past FIXATION_TIME reports destroyed, leaving
resets both dwell fields. (The source reads `self.start_fix` only while
fixating, where it is set; the getD default is never reached then.) -/
def astUpdate (a : Asteroid) (now : ℚ) (c : ℤ × ℤ) : Asteroid × Option AstEvent :=
  if collide a c then
    if !a.fixating then
      ({ a with fixating := true, start_fix := some now }, some .fixation_start)
    else if FIXATION_TIME ≤ now - a.start_fix.getD 0 then
      (a, some .destroyed)
    else
      (a, none)
  else
    ({ a with fixating := false, start_fix := none }, none)

/-- Run one asteroid over a list of (frame time, cursor) pairs with the
main-loop removal semantics: a destroyed result removes the asteroid, so
the run stops and that destruction is the only one counted. Returns the
number of destroyed events. -/
def astRun : Asteroid → List (ℚ × (ℤ × ℤ)) → ℕ
  | _, [] => 0
  | a, (t, c) :: rest =>
    match astUpdate a t c with
    | (_, some .destroyed) => 1
    | (a1, _) => astRun a1 rest

/-- The laser-glow dwell state of the main loop (`laser_fixating`,
`laser_start_fix`). -/
structure LaserState where
  laser_fixating : Bool
  laser_start_fix : Option ℚ
deriving DecidableEq

/-- The laser-glow block of the main loop at frame time `now`: on the first
frame start the dwell; afterwards, once LASER_FIXATION_THRESHOLD has
elapsed, draw the glow (the Bool result). Note the block involves no
cursor or region test and never resets the state. -/
def laserStep (s : LaserState) (now : ℚ) : LaserState × Bool :=
  if !s.laser_fixating then
    ({ laser_fixating := true, laser_start_fix := some now }, false)
  else if LASER_FIXATION_THRESHOLD ≤ now - s.laser_start_fix.getD 0 then
    (s, true)
  else
    (s, false)

/-- Count the frames on which the laser glow fires over a list of frame
times. -/
def laserGlowCount : LaserState → List ℚ → ℕ
  | _, [] => 0
  | s, t :: ts =>
    match laserStep s t with
    | (s1, glow) => (if glow then 1 else 0) + laserGlowCount s1 ts

/-- Asteroid type: "good" or "bad". -/
inductive AstKind where
  | good
  | bad
deriving DecidableEq

/-- The scoring block of the main loop for one destroyed asteroid, acting
on (score, running): a good one adds 1; a bad one floors the score to its
half (Python `//= 2` is floor division) and, when that leaves it at or
below 0, stops the game. -/
def destroyStep : ℤ × Bool → AstKind → ℤ × Bool
  | (sc, r), .good => (sc + 1, r)
  | (sc, r), .bad => (Int.fdiv sc 2, if Int.fdiv sc 2 ≤ 0 then false else r)

/-- Fold a list of destructions from the initial state (score 0, game
running). -/
def destroyFold (evs : List AstKind) : ℤ × Bool :=
  evs.foldl destroyStep (0, true)

end Game

namespace Calibrate

/-- A concrete calibration context: identity undistortion, a fitter that
never returns a matrix, and a device stream that always yields a worn
sample at (3, 4). -/
def ctxA : Ctx := ⟨1280, 720, id, fun _ _ => none, fun _ => some ⟨3, 4, true⟩⟩

/-- A concrete calibration context whose fitter records in the matrix how
many source points it was given, so that fits over different point sets
are distinguishable. -/
def ctxLen : Ctx :=
  ⟨1280, 720, id, fun src _ => some ⟨(src.length : ℚ), 0, 0, 0, 0, 0, 0, 0, 1⟩, fun _ => none⟩

/-- Five concrete captured points (distinct gaze sources, no manual
adjustment). -/
def pt5 (n : ℕ) : CapturedPoint :=
  { gaze := ((n : ℚ), (n : ℚ) + 1), screen := (100 * (n : ℤ), 50 * (n : ℤ)), adjusted := none }

/-- A fully captured five-point set. -/
def pts5 : List (Option CapturedPoint) :=
  [some (pt5 0), some (pt5 1), some (pt5 2), some (pt5 3), some (pt5 4)]

/-- A replay-phase state holding all five captured points, whose homography
is the last fit (computed over all five points). -/
def s5 : CalibState :=
  ⟨.replay, 5, none, none, pts5, recompute ctxLen pts5, true⟩

/-- A capture-phase state at target 0 with all slots still empty. -/
def sCap : CalibState :=
  ⟨.capture, 0, none, none, [none, none, none, none, none], none, true⟩

/-- A replay-phase state where point 0 carries a previously committed
manual adjustment (10, 10). -/
def sAdj : CalibState :=
  ⟨.replay, 5, none, none, [some ⟨(0, 0), (800, 450), some (10, 10)⟩, none, none, none, none],
   none, true⟩

/-- A manual-edit state for point 0, whose adjusted value is (7, 9). -/
def sME : CalibState :=
  ⟨.manual_edit, 5, none, some 0, [some ⟨(0, 0), (800, 450), some (7, 9)⟩, none, none, none, none],
   none, true⟩

/-- A replay-phase state with only point 0 captured and no homography. -/
def sRep : CalibState :=
  ⟨.replay, 5, none, none, [some ⟨(1, 2), (640, 360), none⟩, none, none, none, none], none, true⟩

end Calibrate

/-! Helper lemmas about list indexing and updates. -/

theorem list_get_set_self {α : Type} :
    ∀ (l : List α) (i : ℕ) (a : α), i < l.length → (l.set i a).get? i = some a
  | _ :: _, 0, _, _ => rfl
  | x :: xs, i + 1, a, h => list_get_set_self xs i a (Nat.lt_of_succ_lt_succ h)

theorem list_get_set_ne {α : Type} :
    ∀ (l : List α) (i j : ℕ) (a : α), i ≠ j → (l.set i a).get? j = l.get? j
  | [], _, _, _, _ => by simp
  | _ :: _, 0, 0, _, h => absurd rfl h
  | _ :: _, 0, _ + 1, _, _ => rfl
  | _ :: _, _ + 1, 0, _, _ => rfl
  | _ :: xs, i + 1, j + 1, a, h =>
    list_get_set_ne xs i j a (fun e => h (by rw [e]))

theorem list_set_set {α : Type} :
    ∀ (l : List α) (i : ℕ) (a b : α), (l.set i a).set i b = l.set i b
  | [], _, _, _ => rfl
  | _ :: _, 0, _, _ => rfl
  | x :: xs, i + 1, a, b => by
    show x :: (xs.set i a).set i b = x :: xs.set i b
    rw [list_set_set]

theorem list_set_of_get {α : Type} :
    ∀ (l : List α) (i : ℕ) (a : α), l.get? i = some a → l.set i a = l
  | [], _, _, h => by simp at h
  | x :: xs, 0, a, h => by
    have hx : x = a := Option.some.inj h
    show a :: xs = x :: xs
    rw [hx]
  | x :: xs, i + 1, a, h => by
    show x :: xs.set i a = x :: xs
    rw [list_set_of_get xs i a h]

theorem list_get_lt {α : Type} :
    ∀ (l : List α) (i : ℕ) (a : α), l.get? i = some a → i < l.length
  | [], _, _, h => by simp at h
  | _ :: _, 0, _, _ => Nat.succ_pos _
  | _ :: xs, i + 1, a, h =>
    Nat.succ_lt_succ (list_get_lt xs i a h)

/-- Reading an in-range point back out of `getPt` after `writeAdj`-style
updates: `getPt` is the joined optional read. -/
theorem getPt_join (s : Calibrate.CalibState) (i : ℕ) (p : Calibrate.CapturedPoint)
    (h : s.captured_points.get? i = some (some p)) : Calibrate.getPt s i = some p := by
  unfold Calibrate.getPt
  rw [h]
  rfl

theorem getPt_bound (s : Calibrate.CalibState) (i : ℕ) (p : Calibrate.CapturedPoint)
    (h : Calibrate.getPt s i = some p) : i < s.captured_points.length := by
  unfold Calibrate.getPt at h
  cases hg : s.captured_points.get? i with
  | none => rw [hg] at h; simp at h
  | some o => exact list_get_lt _ _ _ hg

theorem getPt_eq_some (s : Calibrate.CalibState) (i : ℕ) (p : Calibrate.CapturedPoint)
    (h : Calibrate.getPt s i = some p) : s.captured_points.get? i = some (some p) := by
  unfold Calibrate.getPt at h
  cases hg : s.captured_points.get? i with
  | none => rw [hg] at h; simp at h
  | some o =>
    rw [hg] at h
    cases o with
    | none => simp at h
    | some q => simpa using congrArg some h

namespace Calibrate

/-- Claim C6: after every recomputation, the mapping is None whenever fewer
than 4 captured points exist, and with at least 4 the fitter is run on
exactly the captured points, each with destination adjustedScreen when
present and screenTarget otherwise. -/
theorem recompute_mapping_spec (ctx : Ctx) (cps : List (Option CapturedPoint)) :
    ((cps.filterMap id).length < 4 → recompute ctx cps = none)
    ∧ (4 ≤ (cps.filterMap id).length →
        recompute ctx cps
          = ctx.findH ((cps.filterMap id).map (·.gaze))
              ((cps.filterMap id).map fun p =>
                match p.adjusted with
                | some adj => adj
                | none => qScreen p.screen)) := by
  constructor
  · intro h
    unfold recompute
    rw [if_neg (by omega)]
  · intro h
    unfold recompute
    rw [if_pos h]
    rfl

/-- Witness for recompute_mapping_spec: with no captured points the mapping
is None. -/
theorem recompute_mapping_spec_witness :
    recompute ctxA [] = none :=
  (recompute_mapping_spec ctxA []).1 (by decide)

/-- Claim C8: a window QUIT event is accepted in every session state; it
only stops the loop, and the artifact then saved is exactly the list of
populated points, each serialized with its adjustedScreen as it stands. -/
theorem quit_accepted_every_state (ctx : Ctx) (s : CalibState) :
    calibStep ctx s .quit = { s with running := false }
    ∧ saveArtifact (calibStep ctx s .quit).captured_points
        = Json.arr ((s.captured_points.filterMap id).map pointJson) :=
  ⟨rfl, rfl⟩

/-- Counterexample to claim C4: from a replay state where point 0 carries
the previously committed adjustedScreen (10, 10), entering manual edit
(with no homography the entry copies the screen target (800, 450)),
nudging up once and cancelling with ESC leaves adjustedScreen at
(800, 445) — the nudge is kept, and the committed (10, 10) is lost already
at entry. -/
theorem cancel_keeps_nudges :
    getPt (runEvents ctxA sAdj [.key (.digit 0) true, .key .up false, .key .escape false]) 0
      = some ⟨(0, 0), (800, 450), some (800, 445)⟩
    ∧ some ((800 : ℚ), (445 : ℚ)) ≠ some ((10 : ℚ), (10 : ℚ)) := by
  constructor
  · have h : getPt (runEvents ctxA sAdj [.key (.digit 0) true, .key .up false, .key .escape false]) 0
        = some ⟨(0, 0), (800, 450), some ((800 : ℚ), (450 : ℚ) - 5)⟩ := rfl
    rw [h]
    norm_num
  · decide

/-- Claim C4 as amended: ESC in manual edit only exits the edit mode and
returns to replay, leaving every point exactly as it stands — in
particular every nudge already pressed stays committed, since each nudge
writes adjustedScreen immediately. -/
theorem manual_cancel_exits_only (ctx : Ctx) (s : CalibState)
    (hphase : s.phase = .manual_edit) :
    (calibStep ctx s (.key .escape false)
        = { s with manual_edit_index := none, phase := .replay })
    ∧ (∀ (i : ℕ) (p : CapturedPoint), s.manual_edit_index = some i → getPt s i = some p →
        getPt (calibStep ctx s (.key .up false)) i
          = some ⟨p.gaze, p.screen,
              some ((p.adjusted.getD (0, 0)).1, (p.adjusted.getD (0, 0)).2 - 5)⟩) := by
  obtain ⟨ph, ci, ri, mei, cps, hg, run⟩ := s
  have hph : ph = Phase.manual_edit := hphase
  subst hph
  constructor
  · rfl
  · intro i p hmei hp
    have hlen : i < cps.length := getPt_bound _ i p hp
    have hm : mei = some i := hmei
    subst hm
    show getPt (manualHandler ctx ⟨.manual_edit, ci, ri, some i, cps, hg, run⟩ i .up false) i = _
    unfold manualHandler
    rw [hp]
    exact getPt_join _ i _ (list_get_set_self _ i _ hlen)

/-- Witness for manual_cancel_exits_only: ESC from a concrete manual-edit
state exits to replay with the points untouched. -/
theorem manual_cancel_exits_only_witness :
    calibStep ctxA sME (.key .escape false)
      = { sME with manual_edit_index := none, phase := .replay } :=
  (manual_cancel_exits_only ctxA sME rfl).1

/-- Counterexample to claim C5: with a fitter that records how many pairs
it was given, the homography in effect right after redoing point 0 is
still the stale fit over all five points, not the fit over the four
remaining points. -/
theorem redo_keeps_stale_mapping :
    (calibStep ctxLen s5 (.key (.digit 0) false)).homography = recompute ctxLen pts5
    ∧ recompute ctxLen ((calibStep ctxLen s5 (.key (.digit 0) false)).captured_points)
        ≠ (calibStep ctxLen s5 (.key (.digit 0) false)).homography := by
  exact ⟨by decide, by decide⟩

/-- Claim C5 as amended: redoing target i (a digit without SHIFT in
replay) clears only slot i, leaves every other point unchanged, excludes
point i from future fits, enters redo capture — and leaves the homography
field exactly as it was (the stale last fit, computed over the point set
that still included the old data of point i; no refit happens at redo). -/
theorem redo_clears_single_point (ctx : Ctx) (s : CalibState) (i : Fin 5) (p : CapturedPoint)
    (hphase : s.phase = .replay) (hp : getPt s i.val = some p) :
    (calibStep ctx s (.key (.digit i) false)
        = { s with redo_index := some i.val,
                   captured_points := s.captured_points.set i.val none,
                   phase := .capture })
    ∧ (∀ j : ℕ, j ≠ i.val →
        (calibStep ctx s (.key (.digit i) false)).captured_points.get? j
          = s.captured_points.get? j)
    ∧ (calibStep ctx s (.key (.digit i) false)).captured_points.get? i.val = some none
    ∧ (calibStep ctx s (.key (.digit i) false)).homography = s.homography := by
  have hlen : i.val < s.captured_points.length := getPt_bound s i.val p hp
  have hstep : calibStep ctx s (.key (.digit i) false)
      = { s with redo_index := some i.val,
                 captured_points := s.captured_points.set i.val none,
                 phase := .capture } := by
    simp only [calibStep]
    rw [if_neg (by simp), if_neg (by simp [hphase]), if_pos hphase]
    simp only [replayHandler]
    rw [hp]
    rfl
  refine ⟨hstep, fun j hj => ?_, ?_, ?_⟩
  · rw [hstep]
    exact list_get_set_ne _ i.val j none (fun e => hj e.symm)
  · rw [hstep]
    exact list_get_set_self _ i.val none hlen
  · rw [hstep]

/-- Witness for redo_clears_single_point: redoing point 0 of the concrete
five-point session keeps the homography field unchanged. -/
theorem redo_clears_single_point_witness :
    (calibStep ctxLen s5 (.key (.digit 0) false)).homography = s5.homography :=
  (redo_clears_single_point ctxLen s5 0 (pt5 0) rfl rfl).2.2.2

/-- Claim C2: a SPACE burst capture in the capture phase succeeds exactly
when at least 70 percent of the 30 pulled samples are valid; on success
the stored gaze is the exact componentwise mean of the valid undistorted
samples (with the screen target of the captured index and no adjustment);
on failure the whole state is unchanged — still Capture, same index. -/
theorem capture_burst_spec (ctx : Ctx) (s : CalibState)
    (hphase : s.phase = .capture) (hlen : s.captured_points.length = 5)
    (hidx : captureIdx s < 5) :
    ((burstSamples ctx).length < MIN_SAMPLES → calibStep ctx s (.key .space false) = s)
    ∧ (MIN_SAMPLES ≤ (burstSamples ctx).length →
        getPt (calibStep ctx s (.key .space false)) (captureIdx s)
          = some ⟨meanQ (burstSamples ctx), (calibPoints ctx).getD (captureIdx s) (0, 0), none⟩)
    ∧ (MIN_SAMPLES ≤ (burstSamples ctx).length
        ↔ (7 : ℚ) / 10 * (SAMPLES_PER_POINT : ℚ) ≤ ((burstSamples ctx).length : ℚ)) := by
  obtain ⟨ph, ci, ri, mei, cps, hg, run⟩ := s
  have hph : ph = Phase.capture := hphase
  subst hph
  have hl5 : cps.length = 5 := hlen
  have hstep : calibStep ctx ⟨.capture, ci, ri, mei, cps, hg, run⟩ (.key .space false)
      = captureHandler ctx ⟨.capture, ci, ri, mei, cps, hg, run⟩ := rfl
  refine ⟨?_, ?_, ?_⟩
  · intro h
    rw [hstep]
    unfold captureHandler
    rw [if_neg (by omega)]
  · intro h
    rw [hstep]
    unfold captureHandler
    rw [if_pos h]
    cases ri with
    | none =>
      rw [if_pos rfl]
      by_cases hci : 5 ≤ ci + 1
      · rw [if_pos hci]
        exact getPt_join _ _ _ (list_get_set_self _ _ _ (by rw [hl5]; exact hidx))
      · rw [if_neg hci]
        exact getPt_join _ _ _ (list_get_set_self _ _ _ (by rw [hl5]; exact hidx))
    | some r =>
      rw [if_neg (by simp)]
      exact getPt_join _ _ _ (list_get_set_self _ _ _ (by rw [hl5]; exact hidx))
  · rw [show (7 : ℚ) / 10 * (SAMPLES_PER_POINT : ℚ) = 21 from by norm_num [SAMPLES_PER_POINT]]
    simp only [MIN_SAMPLES]
    constructor
    · intro h
      exact_mod_cast h
    · intro h
      exact_mod_cast h

/-- Witness for capture_burst_spec: a device whose every pull is a worn
sample at (3, 4) makes the capture succeed and stores the mean. -/
theorem capture_burst_spec_witness :
    getPt (calibStep ctxA sCap (.key .space false)) (captureIdx sCap)
      = some ⟨meanQ (burstSamples ctxA), (calibPoints ctxA).getD (captureIdx sCap) (0, 0), none⟩ :=
  (capture_burst_spec ctxA sCap rfl rfl (by decide)).2.1 (by decide)

/-- An UP nudge in the manual-edit phase immediately commits an adjusted
value 5 lower in y. -/
theorem calibStep_nudge_up (ctx : Ctx) (s : CalibState) (i : ℕ) (p : CapturedPoint)
    (hph : s.phase = .manual_edit) (hmei : s.manual_edit_index = some i)
    (hp : getPt s i = some p) :
    calibStep ctx s (.key .up false)
      = writeAdj s i p ((p.adjusted.getD (0, 0)).1, (p.adjusted.getD (0, 0)).2 - 5) := by
  obtain ⟨ph, ci, ri, mei, cps, hg, run⟩ := s
  have h1 : ph = Phase.manual_edit := hph
  subst h1
  have h2 : mei = some i := hmei
  subst h2
  show manualHandler ctx ⟨.manual_edit, ci, ri, some i, cps, hg, run⟩ i .up false = _
  unfold manualHandler
  rw [hp]
  rfl

/-- RETURN in the manual-edit phase writes the current adjusted value back,
refits, clears the edit index and returns to replay. -/
theorem calibStep_ret (ctx : Ctx) (s : CalibState) (i : ℕ) (p : CapturedPoint)
    (hph : s.phase = .manual_edit) (hmei : s.manual_edit_index = some i)
    (hp : getPt s i = some p) :
    calibStep ctx s (.key .ret false)
      = { writeAdj s i p (p.adjusted.getD (0, 0)) with
          homography := recompute ctx (writeAdj s i p (p.adjusted.getD (0, 0))).captured_points,
          manual_edit_index := none, phase := Phase.replay } := by
  obtain ⟨ph, ci, ri, mei, cps, hg, run⟩ := s
  have h1 : ph = Phase.manual_edit := hph
  subst h1
  have h2 : mei = some i := hmei
  subst h2
  show manualHandler ctx ⟨.manual_edit, ci, ri, some i, cps, hg, run⟩ i .ret false = _
  unfold manualHandler
  rw [hp]

/-- SHIFT+digit in replay enters manual edit for that point, initializing
its adjusted value to the pre-edit mapped point. -/
theorem calibStep_entry (ctx : Ctx) (s : CalibState) (i : Fin 5) (p : CapturedPoint)
    (hph : s.phase = .replay) (hp : getPt s i.val = some p) :
    calibStep ctx s (.key (.digit i) true)
      = { s with manual_edit_index := some i.val,
                 captured_points := s.captured_points.set i.val (some ⟨p.gaze, p.screen, some (preEdit s p)⟩),
                 phase := Phase.manual_edit } := by
  obtain ⟨ph, ci, ri, mei, cps, hg, run⟩ := s
  have h1 : ph = Phase.replay := hph
  subst h1
  show replayHandler ctx ⟨.replay, ci, ri, mei, cps, hg, run⟩ (.digit i) true = _
  simp only [replayHandler]
  rw [hp]
  rfl

/-- Folding events distributes over list append. -/
theorem runEvents_append (ctx : Ctx) (s : CalibState) (l1 l2 : List Ev) :
    runEvents ctx s (l1 ++ l2) = runEvents ctx (runEvents ctx s l1) l2 :=
  List.foldl_append _ _ _ _

/-- k successive UP nudges in the manual-edit phase accumulate to an
adjusted value k times 5 lower in y, written into slot i only. -/
theorem nudges_accumulate (ctx : Ctx) :
    ∀ (k : ℕ) (s : CalibState) (i : ℕ) (p : CapturedPoint) (av : ℚ × ℚ),
      s.phase = .manual_edit → s.manual_edit_index = some i →
      getPt s i = some p → p.adjusted = some av →
      runEvents ctx s (List.replicate k (.key .up false))
        = { s with captured_points := s.captured_points.set i (some ⟨p.gaze, p.screen, some (av.1, av.2 - 5 * (k : ℚ))⟩) }
  | 0, s, i, p, av, _, _, hp, ha => by
    have hv : (av.1, av.2 - 5 * ((0 : ℕ) : ℚ)) = av := by
      have h2 : av.2 - 5 * ((0 : ℕ) : ℚ) = av.2 := by push_cast; ring
      calc (av.1, av.2 - 5 * ((0 : ℕ) : ℚ)) = (av.1, av.2) := by rw [h2]
        _ = av := rfl
    show s = _
    rw [hv, ← ha]
    rw [show (⟨p.gaze, p.screen, p.adjusted⟩ : CapturedPoint) = p from rfl]
    rw [list_set_of_get _ i _ (getPt_eq_some _ i p hp)]
  | k + 1, s, i, p, av, hph, hmei, hp, ha => by
    have hlen : i < s.captured_points.length := getPt_bound s i p hp
    have hup : calibStep ctx s (.key .up false) = writeAdj s i p (av.1, av.2 - 5) := by
      rw [calibStep_nudge_up ctx s i p hph hmei hp, ha]
      rfl
    have hp1 : getPt (writeAdj s i p (av.1, av.2 - 5)) i
        = some ⟨p.gaze, p.screen, some (av.1, av.2 - 5)⟩ :=
      getPt_join _ _ _ (list_get_set_self _ _ _ hlen)
    have ih := nudges_accumulate ctx k (writeAdj s i p (av.1, av.2 - 5)) i
      ⟨p.gaze, p.screen, some (av.1, av.2 - 5)⟩ (av.1, av.2 - 5) hph hmei hp1 rfl
    show runEvents ctx (calibStep ctx s (.key .up false)) (List.replicate k (.key .up false)) = _
    rw [hup, ih]
    have harith : av.2 - 5 - 5 * (k : ℚ) = av.2 - 5 * ((k + 1 : ℕ) : ℚ) := by
      push_cast
      ring
    show ({ s with captured_points := (s.captured_points.set i (some ⟨p.gaze, p.screen, some (av.1, av.2 - 5)⟩)).set i (some ⟨p.gaze, p.screen, some (av.1, av.2 - 5 - 5 * (k : ℚ))⟩) } : CalibState) = _
    rw [list_set_set, harith]

/-- Claim C9: from replay with point i captured, entering manual edit,
pressing UP k times at the small step and confirming with RETURN yields an
adjustedScreen offset by exactly k times 5 below the pre-edit mapped point
(the homography-mapped gaze at entry, or the screen target when no
mapping), along the y axis only, and the session is back in replay. -/
theorem nudge_offset_exact (ctx : Ctx) (s : CalibState) (i : Fin 5) (p : CapturedPoint) (k : ℕ)
    (hphase : s.phase = .replay) (hp : getPt s i.val = some p) :
    getPt (runEvents ctx s
        (.key (.digit i) true :: (List.replicate k (.key .up false) ++ [.key .ret false]))) i.val
      = some ⟨p.gaze, p.screen, some ((preEdit s p).1, (preEdit s p).2 - 5 * (k : ℚ))⟩
    ∧ (runEvents ctx s
        (.key (.digit i) true :: (List.replicate k (.key .up false) ++ [.key .ret false]))).phase
      = Phase.replay := by
  have hlen : i.val < s.captured_points.length := getPt_bound s i.val p hp
  have hE := calibStep_entry ctx s i p hphase hp
  have hp1 : getPt
      { s with manual_edit_index := some i.val,
               captured_points := s.captured_points.set i.val (some ⟨p.gaze, p.screen, some (preEdit s p)⟩),
               phase := Phase.manual_edit } i.val
      = some ⟨p.gaze, p.screen, some (preEdit s p)⟩ :=
    getPt_join _ _ _ (list_get_set_self _ _ _ hlen)
  have hacc := nudges_accumulate ctx k
    { s with manual_edit_index := some i.val,
             captured_points := s.captured_points.set i.val (some ⟨p.gaze, p.screen, some (preEdit s p)⟩),
             phase := Phase.manual_edit } i.val
    ⟨p.gaze, p.screen, some (preEdit s p)⟩ (preEdit s p) rfl rfl hp1 rfl
  have hlen2 : i.val < ((s.captured_points.set i.val (some ⟨p.gaze, p.screen, some (preEdit s p)⟩)).set i.val
      (some ⟨p.gaze, p.screen, some ((preEdit s p).1, (preEdit s p).2 - 5 * (k : ℚ))⟩)).length := by
    rw [List.length_set, List.length_set]
    exact hlen
  have hp2 : getPt
      { s with manual_edit_index := some i.val,
               captured_points := (s.captured_points.set i.val (some ⟨p.gaze, p.screen, some (preEdit s p)⟩)).set i.val (some ⟨p.gaze, p.screen, some ((preEdit s p).1, (preEdit s p).2 - 5 * (k : ℚ))⟩),
               phase := Phase.manual_edit } i.val
      = some ⟨p.gaze, p.screen, some ((preEdit s p).1, (preEdit s p).2 - 5 * (k : ℚ))⟩ :=
    getPt_join _ _ _ (list_get_set_self _ _ _ (by rw [List.length_set]; exact hlen))
  have hR := calibStep_ret ctx
    { s with manual_edit_index := some i.val,
             captured_points := (s.captured_points.set i.val (some ⟨p.gaze, p.screen, some (preEdit s p)⟩)).set i.val
               (some ⟨p.gaze, p.screen, some ((preEdit s p).1, (preEdit s p).2 - 5 * (k : ℚ))⟩),
             phase := Phase.manual_edit } i.val
    ⟨p.gaze, p.screen, some ((preEdit s p).1, (preEdit s p).2 - 5 * (k : ℚ))⟩ rfl rfl hp2
  have hrun : runEvents ctx s
      (.key (.digit i) true :: (List.replicate k (.key .up false) ++ [.key .ret false]))
      = calibStep ctx
          { s with manual_edit_index := some i.val,
                   captured_points := (s.captured_points.set i.val (some ⟨p.gaze, p.screen, some (preEdit s p)⟩)).set i.val
                     (some ⟨p.gaze, p.screen, some ((preEdit s p).1, (preEdit s p).2 - 5 * (k : ℚ))⟩),
                   phase := Phase.manual_edit } (.key .ret false) := by
    show runEvents ctx (calibStep ctx s (.key (.digit i) true))
        (List.replicate k (.key .up false) ++ [.key .ret false]) = _
    rw [hE, runEvents_append, hacc]
    rfl
  rw [hrun, hR]
  constructor
  · exact getPt_join _ _ _ (list_get_set_self _ _ _ hlen2)
  · rfl

/-- Witness for nudge_offset_exact: two UP nudges on the concrete replay
state move adjustedScreen 10 below the screen target of point 0. -/
theorem nudge_offset_exact_witness :
    getPt (runEvents ctxA sRep
        (.key (.digit 0) true :: (List.replicate 2 (.key .up false) ++ [.key .ret false]))) (0 : Fin 5).val
      = some ⟨(1, 2), (640, 360),
          some ((preEdit sRep ⟨(1, 2), (640, 360), none⟩).1,
            (preEdit sRep ⟨(1, 2), (640, 360), none⟩).2 - 5 * ((2 : ℕ) : ℚ))⟩ :=
  (nudge_offset_exact ctxA sRep 0 ⟨(1, 2), (640, 360), none⟩ 2 rfl rfl).1

end Calibrate

namespace Game

/-- Claim C1 (code bug): evaluated on the artifact that calibrate.py
actually persists (a JSON array of gaze/screen/adjusted records),
`map_affine` cannot find its params_x/params_y keys, the exception path is
taken, and the runtime cursor is whatever the mouse fallback is — the
persisted calibration set is never turned into a mapping at all. -/
theorem runtime_affine_params_missing :
    resolveGameCursor 1280 720 id none true (some (Calibrate.saveArtifact Calibrate.pts5))
        (some (.xy 800 600)) (3, 4) = (3, 4)
    ∧ resolveGameCursor 1280 720 id none true (some (Calibrate.saveArtifact Calibrate.pts5))
        (some (.xy 800 600)) (7, 8) = (7, 8) := by
  exact ⟨by decide, by decide⟩

/-- Counterexample to claim C7: with a device but no loaded calibration,
a live gaze sample at (100, 200) does not become the cursor; the mouse
position (3, 4) does. -/
theorem unmapped_uses_pointer :
    resolveGameCursor 1280 720 id none true none (some (.xy 100 200)) (3, 4) = (3, 4)
    ∧ ((3 : ℤ), (4 : ℤ)) ≠ ((100 : ℤ), (200 : ℤ)) := by
  exact ⟨rfl, by decide⟩

/-- Claim C7 as amended: when no calibration artifact is loaded, the
runtime skips gaze processing entirely and the cursor is the pointer
(mouse) position — there is no degraded raw-point mode. -/
theorem no_mapping_falls_back_to_pointer (W H : ℤ) (und : ℚ × ℚ → ℚ × ℚ)
    (sceneRes : Option (ℤ × ℤ)) (device : Bool) (gaze : Option GazeSample)
    (mouse : ℤ × ℤ) :
    resolveGameCursor W H und sceneRes device none gaze mouse = mouse := rfl

/-- Counterexample to claim C3 for the aim-cursor instance: the laser dwell
has no region test and never resets; over three frames at 0, 0.02 and 0.04
seconds the glow (the complete event of the laser instance) fires twice,
not exactly once. -/
theorem laser_glow_repeats :
    laserGlowCount ⟨false, none⟩ [0, 1 / 50, 1 / 25] = 2
    ∧ (2 : ℕ) ≠ 1 := by
  refine ⟨?_, by decide⟩
  norm_num [laserGlowCount, laserStep, LASER_FIXATION_THRESHOLD]

/-- Entering the region from the idle state starts the dwell at the frame
time. -/
theorem astUpdate_enters (a : Asteroid) (t : ℚ) (c : ℤ × ℤ)
    (h0 : a.fixating = false) (hc : collide a c = true) :
    astUpdate a t c = ({ a with fixating := true, start_fix := some t }, some .fixation_start) := by
  simp [astUpdate, hc, h0]

/-- Staying inside before the threshold changes nothing and reports
nothing. -/
theorem astUpdate_waits (a : Asteroid) (t t0 : ℚ) (c : ℤ × ℤ)
    (ha : a.fixating = true) (hs : a.start_fix = some t0)
    (hc : collide a c = true) (ht : t - t0 < FIXATION_TIME) :
    astUpdate a t c = (a, none) := by
  simp [astUpdate, hc, ha, hs, not_le.mpr ht]

/-- Staying inside past the threshold reports destroyed. -/
theorem astUpdate_fires (a : Asteroid) (t t0 : ℚ) (c : ℤ × ℤ)
    (ha : a.fixating = true) (hs : a.start_fix = some t0)
    (hc : collide a c = true) (ht : FIXATION_TIME ≤ t - t0) :
    astUpdate a t c = (a, some .destroyed) := by
  simp [astUpdate, hc, ha, hs, ht]

/-- An active asteroid watched over frames that stay inside its region,
all before the threshold except a final frame at or past it, is destroyed
exactly once. -/
theorem astRun_stay (a : Asteroid) (t0 tf : ℚ) (cf : ℤ × ℤ) :
    ∀ mids : List (ℚ × (ℤ × ℤ)),
      a.fixating = true → a.start_fix = some t0 →
      (∀ p ∈ mids, collide a p.2 = true ∧ p.1 - t0 < FIXATION_TIME) →
      collide a cf = true → FIXATION_TIME ≤ tf - t0 →
      astRun a (mids ++ [(tf, cf)]) = 1
  | [], ha, hs, _, hcf, htf => by
    simp only [List.nil_append, astRun, astUpdate_fires a tf t0 cf ha hs hcf htf]
  | (t, c) :: mids, ha, hs, hmid, hcf, htf => by
    have hw : astUpdate a t c = (a, none) :=
      astUpdate_waits a t t0 c ha hs (hmid (t, c) (by simp)).1 (hmid (t, c) (by simp)).2
    simp only [List.cons_append, astRun, hw]
    exact astRun_stay a t0 tf cf mids ha hs (fun p hp => hmid p (by simp [hp])) hcf htf

/-- Claim C3 as amended, target-entity part plus the laser divergence: for
an asteroid, exiting the region always resets the dwell to idle discarding
progress; entering idle and staying inside until the threshold elapses
yields exactly one destroyed event; and the laser dwell state, having no
region test, is active after every frame and never resets. -/
theorem fixation_machine_targets (a : Asteroid) (t0 tf : ℚ) (c0 cf : ℤ × ℤ)
    (mids : List (ℚ × (ℤ × ℤ)))
    (h0 : a.fixating = false) (hc0 : collide a c0 = true)
    (hmid : ∀ p ∈ mids, collide a p.2 = true ∧ p.1 - t0 < FIXATION_TIME)
    (hcf : collide a cf = true) (htf : FIXATION_TIME ≤ tf - t0) :
    (∀ (b : Asteroid) (t : ℚ) (c : ℤ × ℤ), collide b c = false →
        astUpdate b t c = ({ b with fixating := false, start_fix := none }, none))
    ∧ astRun a ((t0, c0) :: (mids ++ [(tf, cf)])) = 1
    ∧ (∀ (ls : LaserState) (t : ℚ), (laserStep ls t).1.laser_fixating = true) := by
  refine ⟨fun b t c h => by simp [astUpdate, h], ?_, ?_⟩
  · have he := astUpdate_enters a t0 c0 h0 hc0
    simp only [astRun, he]
    exact astRun_stay _ t0 tf cf mids rfl rfl hmid hcf htf
  · intro ls t
    rcases ls with ⟨f, st⟩
    cases f
    · rfl
    · unfold laserStep
      split
      · rfl
      · split <;> rfl

/-- Witness for fixation_machine_targets: a concrete asteroid at (100, 100)
entered at time 0, watched at time 1/2 and at time 1, is destroyed exactly
once. -/
theorem fixation_machine_targets_witness :
    astRun ⟨100, 100, false, none⟩
      ((0, ((100 : ℤ), (100 : ℤ)))
        :: ([((1 : ℚ) / 2, ((100 : ℤ), (100 : ℤ)))] ++ [((1 : ℚ), ((100 : ℤ), (100 : ℤ)))])) = 1 :=
  (fixation_machine_targets ⟨100, 100, false, none⟩ 0 1 (100, 100) (100, 100)
    [((1 : ℚ) / 2, (100, 100))] rfl (by decide)
    (by
      intro p hp
      simp only [List.mem_singleton] at hp
      subst hp
      exact ⟨by decide, by norm_num [FIXATION_TIME]⟩)
    (by decide) (by norm_num [FIXATION_TIME])).2.1

/-- The nonnegativity invariant over any destruction sequence. -/
theorem destroy_fold_nonneg :
    ∀ (evs : List AstKind) (sc : ℤ) (r : Bool), 0 ≤ sc →
      0 ≤ (evs.foldl destroyStep (sc, r)).1
  | [], _, _, h => h
  | .good :: evs, sc, r, h =>
    destroy_fold_nonneg evs (sc + 1) r (by omega)
  | .bad :: evs, sc, r, h =>
    destroy_fold_nonneg evs (Int.fdiv sc 2) _ (Int.fdiv_nonneg h (by omega))

/-- Claim C10: the score starts at 0 and never goes negative; a good
destruction adds one, a bad destruction floors the score to half, and a
bad destruction leaving the score at or below zero stops the game. -/
theorem score_nonnegative_invariant :
    destroyFold [] = (0, true)
    ∧ (∀ evs : List AstKind, 0 ≤ (destroyFold evs).1)
    ∧ (∀ (sc : ℤ) (r : Bool), destroyStep (sc, r) .good = (sc + 1, r))
    ∧ (∀ (sc : ℤ) (r : Bool), (destroyStep (sc, r) .bad).1 = Int.fdiv sc 2)
    ∧ (∀ (sc : ℤ) (r : Bool), (destroyStep (sc, r) .bad).1 ≤ 0 →
        (destroyStep (sc, r) .bad).2 = false) := by
  refine ⟨rfl, fun evs => destroy_fold_nonneg evs 0 true le_rfl, fun _ _ => rfl,
    fun _ _ => rfl, fun sc r h => ?_⟩
  simp only [destroyStep] at h ⊢
  rw [if_pos h]

/-- Witness for score_nonnegative_invariant: a bad destruction at score 0
leaves 0 and stops the game. -/
theorem score_nonnegative_invariant_witness :
    (destroyStep (0, true) .bad).2 = false :=
  score_nonnegative_invariant.2.2.2.2 0 true (by decide)

end Game

end LaserBeam
